import Mathlib

/- Verification development for the multi-host remote-command runner
   (Go package `common`, file `command.go`).

   The coordinator (`RemoteCommand`) fans out one worker per host
   (`execute`), aggregates results into shared maps guarded by a mutex,
   and `PrettyPrint` renders the aggregated maps.  The SSH transport and
   the gzip codec are external collaborators; their per-call outcomes are
   modelled as explicit inputs (`HostEnv`, `GzipCodec`).  Go maps are
   modelled as association lists with replace-or-append assignment.
   Each worker's interaction with the shared state is recorded as an
   event trace (`Ev`): lock/unlock operations, map writes, the dial call
   with the address actually dialed, the deferred closes, and whether the
   worker signalled the wait-group (`wg.Done`). -/

namespace OptoolSpec

/-- Go map assignment `m[k] = v` on an association-list model: replace the
binding if the key is present, otherwise append it. -/
def upsert : List (String × String) → String → String → List (String × String)
  | [], k, v => [(k, v)]
  | (k', v') :: t, k, v => if k' = k then (k, v) :: t else (k', v') :: upsert t k v

/-- Go map assignment for a map whose values are opaque handles (sessions,
readers): only the key set matters. -/
def insertKey (l : List String) (k : String) : List String :=
  if l.contains k then l else l ++ [k]

/-- The key set of an association-list map. -/
def keysOf : List (String × String) → List String
  | [] => []
  | (k, _) :: t => k :: keysOf t

/-- The shared aggregation state of a `RemoteCommand`: `Output`, `Error`,
and the key sets of `Running`, `PipeOut`, `PipeError` (their values are
opaque session/reader handles). -/
structure RCState where
  Output : List (String × String)
  Error : List (String × String)
  Running : List String
  PipeOut : List String
  PipeError : List String
deriving DecidableEq

/-- The state produced by `NewRemoteCommand`: all five maps empty. -/
def emptyState : RCState := ⟨[], [], [], [], []⟩

/-- Outcomes of the external transport calls made on behalf of one host:
`ssh.Dial` (`dialErr`), `client.NewSession` (`sessErr`), `sess.Output`
(`out`, `outErr`), and the Stream-mode calls `sess.StdoutPipe`,
`sess.StderrPipe`, `sess.Start`, `sess.Wait` (whose errors the code
assigns to the local variable `e`). -/
structure HostEnv where
  dialErr : Option String
  sessErr : Option String
  out : String
  outErr : Option String
  stdoutPipeErr : Option String
  stderrPipeErr : Option String
  startErr : Option String
  waitErr : Option String
deriving DecidableEq

/-- Names of the five shared maps. -/
inductive MapN
  | out
  | err
  | run
  | pOut
  | pErr
deriving DecidableEq

/-- Events a worker emits: the dial with the address actually dialed,
mutex operations, a write to a shared map under a host key, the
wait-group completion signal, and the deferred session/connection
closes. -/
inductive Ev
  | dial (addr : String)
  | lock
  | unlock
  | write (m : MapN) (h : String)
  | wgDone
  | sessClose
  | clientClose
deriving DecidableEq

/-- Models `strings.Index s ":" >= 0`, the explicit-port test. -/
def containsChar (s : String) (c : Char) : Bool := s.data.contains c

/-- One per-host worker: translation of `RemoteCommand.execute`.  Given
the mode, the configured default port, the shared state at the worker's
linearization point, the host string and the transport outcomes, it
returns the updated shared state, the worker's event trace, and whether
the worker called `wg.Done`.  Branches, in source order: dial failure
(error recorded under the original host key, `wg.Done` called); session
failure (error recorded, the deferred `client.Close` runs, but `wg.Done`
is NOT called — the code returns without it); Stream mode (session and
both pipe readers registered without taking the lock, pipe/start/wait
errors discarded, `wg.Done` called, deferred closes run); Capture mode
(`Output[ohost]` always written, `Error[ohost]` additionally on a
non-nil run error, all under the lock, then `wg.Done` and the deferred
closes). -/
def execute (pipeMode : Bool) (defaultPort : Nat) (st : RCState)
    (host : String) (env : HostEnv) : RCState × List Ev × Bool :=
  let ohost := host
  let addr := if containsChar host ':' then host
              else host ++ ":" ++ toString defaultPort
  match env.dialErr with
  | some msg =>
      ({ st with Error := upsert st.Error ohost msg },
        [Ev.dial addr, Ev.lock, Ev.write MapN.err ohost, Ev.unlock, Ev.wgDone],
        true)
  | none =>
      match env.sessErr with
      | some msg =>
          ({ st with Error := upsert st.Error ohost msg },
            [Ev.dial addr, Ev.lock, Ev.write MapN.err ohost, Ev.unlock,
              Ev.clientClose],
            false)
      | none =>
          if pipeMode then
            ({ st with Running := insertKey st.Running ohost,
                       PipeOut := insertKey st.PipeOut ohost,
                       PipeError := insertKey st.PipeError ohost },
              [Ev.dial addr, Ev.write MapN.run ohost, Ev.write MapN.pOut ohost,
                Ev.write MapN.pErr ohost, Ev.wgDone, Ev.sessClose,
                Ev.clientClose],
              true)
          else
            ({ st with Output := upsert st.Output ohost env.out,
                       Error := match env.outErr with
                         | some msg => upsert st.Error ohost msg
                         | none => st.Error },
              [Ev.dial addr, Ev.lock, Ev.write MapN.out ohost] ++
                (match env.outErr with
                  | some _ => [Ev.write MapN.err ohost]
                  | none => []) ++
                [Ev.unlock, Ev.wgDone, Ev.sessClose, Ev.clientClose],
              true)

/-- Sequential linearization of the concurrent fan-out: each worker only
touches its own host key under the lock, so the final shared state is the
fold of `execute` over the host list; the list of `wg.Done` flags is
collected alongside. -/
def runHosts (pipeMode : Bool) (defaultPort : Nat) (hosts : List String)
    (envs : String → HostEnv) (st : RCState) : RCState × List Bool :=
  match hosts with
  | [] => (st, [])
  | h :: t =>
      let r := execute pipeMode defaultPort st h (envs h)
      let rest := runHosts pipeMode defaultPort t envs r.1
      (rest.1, r.2.2 :: rest.2)

/-- Outcome of a call to `Start`: the final shared state, the per-worker
completion flags, whether the call ever returns, and whether it is
blocked forever on the `PipeChan` send. -/
structure StartOut where
  st : RCState
  dones : List Bool
  returns : Bool
  blockedOnPipeChan : Bool
deriving DecidableEq

/-- Translation of `RemoteCommand.Start`: it launches one worker per host
and then, in Stream mode, performs `rc.PipeChan <- true`.  `PipeChan` is
created by `make(chan bool)` — an unbuffered channel — so the send
completes only if some caller receives it (`receiverPresent`); the
workers were already launched, so they run either way.  After the send,
`Start` blocks on `rc.wg.Wait()`, which returns exactly when every worker
has called `wg.Done`. -/
def Start (pipeMode : Bool) (defaultPort : Nat) (hosts : List String)
    (envs : String → HostEnv) (receiverPresent : Bool) : StartOut :=
  let r := runHosts pipeMode defaultPort hosts envs emptyState
  if pipeMode && !receiverPresent then
    ⟨r.1, r.2, false, true⟩
  else
    ⟨r.1, r.2, r.2.all (fun b => b), false⟩

/-- Checks that, starting from the given lock-held flag, every `write`
event selected by `p` in the trace occurs while the lock is held. -/
def writesLockedFrom (p : MapN → Bool) : List Ev → Bool → Bool
  | [], _ => true
  | Ev.lock :: t, _ => writesLockedFrom p t true
  | Ev.unlock :: t, _ => writesLockedFrom p t false
  | Ev.write m _ :: t, held => (!p m || held) && writesLockedFrom p t held
  | _ :: t, held => writesLockedFrom p t held

/-- Every map write in the trace happens under the lock. -/
def writesLocked (tr : List Ev) : Bool := writesLockedFrom (fun _ => true) tr false

/-- Selects the `Output` and `Error` maps. -/
def aggMap : MapN → Bool
  | MapN.out => true
  | MapN.err => true
  | _ => false

/-- The gzip codec as an opaque collaborator (`compress/gzip`): `header`
models `gzip.NewReader`, which reads and validates the gzip header,
returning an error message on a malformed header; `body` models
`ioutil.ReadAll` on the opened reader, returning the bytes successfully
decoded together with an optional mid-stream error. -/
structure GzipCodec where
  header : String → Option String
  body : String → String × Option String

/-- Models `strings.TrimRight s "\n"` / `bytes.TrimRight data "\n"`. -/
def trimNl (s : String) : String :=
  String.mk ((s.data.reverse.dropWhile (fun c => c = '\n')).reverse)

/-- Models `strings.Contains s "\n"` / `bytes.Contains data "\n"`. -/
def containsNl (s : String) : Bool := s.data.contains '\n'

/-- Models the `%15s` format verb: right-align in a field of width 15. -/
def padLeft15 (s : String) : String :=
  String.mk (List.replicate (15 - s.data.length) ' ') ++ s

/-- One `Error`-map entry as written by the two `fmt.Fprintln` calls
(arguments are joined by single spaces and a newline is appended). -/
def renderErrEntry (h e : String) : String :=
  let e' := trimNl e
  if containsNl e' then h ++ " :\n " ++ e' ++ "\n" else h ++ " : " ++ e' ++ "\n"

/-- The error-section body: the entries in map-iteration order. -/
def renderErrEntries : List (String × String) → String
  | [] => ""
  | (h, e) :: t => renderErrEntry h e ++ renderErrEntries t

/-- One `Output`-map entry: the pair of text written to the output sink
and messages passed to `log.Println`.  With compression on, a header
failure logs and skips the entry (`continue`); a body failure only logs,
and rendering proceeds with the bytes that were decoded.  The host label
(`%15s: `) is printed unless `noHost`, with the body moved to the next
line when it contains an embedded newline. -/
def renderOutEntry (gzipOn : Bool) (codec : GzipCodec) (noHost : Bool)
    (h o : String) : String × List String :=
  if gzipOn then
    match codec.header o with
    | some msg => ("", [msg])
    | none =>
        let r := codec.body o
        let logs := match r.2 with
          | some msg => [msg]
          | none => []
        let data := trimNl r.1
        ((if !noHost then
            padLeft15 h ++ ": " ++ (if containsNl data then "\n" else "")
          else "") ++ data ++ "\n", logs)
  else
    let o' := trimNl o
    ((if !noHost then
        padLeft15 h ++ ": " ++ (if containsNl o' then "\n" else "")
      else "") ++ o' ++ "\n", [])

/-- The output-section body and accumulated log messages, in
map-iteration order. -/
def renderOutEntries (gzipOn : Bool) (codec : GzipCodec) (noHost : Bool) :
    List (String × String) → String × List String
  | [] => ("", [])
  | (h, o) :: t =>
      let r := renderOutEntry gzipOn codec noHost h o
      let rest := renderOutEntries gzipOn codec noHost t
      (r.1 ++ rest.1, r.2 ++ rest.2)

/-- The error-section header line, written with `we.Write`. -/
def errHeader : String :=
  "================================= ERROR =================================\n"

/-- The output-section header line, written with `fmt.Fprintln`. -/
def outHeader : String :=
  "================================= OUTPUT =================================\n"

/-- What `PrettyPrint` produced: the text written to the output writer
`wo`, the text written to the error writer `we`, and the messages passed
to `log.Println`. -/
structure PPOut where
  wo : String
  we : String
  logs : List String
deriving DecidableEq

/-- Translation of `RemoteCommand.PrettyPrint`: the error section is
emitted only when `Error` is non-empty and `noHost` is false (header
suppressed by `noHeader`); the output section is emitted when `Output`
is non-empty, each entry rendered by `renderOutEntry` under the
process-wide compression flag. -/
def PrettyPrint (gzipOn : Bool) (codec : GzipCodec) (st : RCState)
    (noHeader noHost : Bool) : PPOut :=
  let we :=
    if !st.Error.isEmpty && !noHost then
      (if !noHeader then errHeader else "") ++ renderErrEntries st.Error
    else ""
  let r :=
    if !st.Output.isEmpty then
      let e := renderOutEntries gzipOn codec noHost st.Output
      ((if !noHeader then outHeader else "") ++ e.1, e.2)
    else ("", [])
  ⟨r.1, we, r.2⟩

/-- A transport run where everything succeeds and the command prints
`hello`. -/
def envOK : HostEnv := ⟨none, none, "hello\n", none, none, none, none, none⟩

/-- A run where dial and session-open succeed but the remote command
exits non-zero: `sess.Output` returns partial output and an error. -/
def envExecFail : HostEnv :=
  ⟨none, none, "partial", some "Process exited with status 1",
    none, none, none, none⟩

/-- A run where `ssh.Dial` fails. -/
def envDialFail : HostEnv :=
  ⟨some "dial tcp: connection refused", none, "", none, none, none, none, none⟩

/-- A run where dial succeeds but `client.NewSession` fails. -/
def envSessFail : HostEnv :=
  ⟨none, some "ssh: session open failed", "", none, none, none, none, none⟩

/-- A Stream-mode run where dial and session-open succeed but every
later step (pipes, start, wait) reports an error. -/
def envStreamSetupFail : HostEnv :=
  ⟨none, none, "", none, some "stdout pipe failed", some "stderr pipe failed",
    some "start failed", some "wait: exit status 1"⟩

/-- A codec that accepts every header and decodes every body to `ok`. -/
def codecOK : GzipCodec := ⟨fun _ => none, fun _ => ("ok\n", none)⟩

/-- A codec that rejects exactly the payload `bad` at the header. -/
def codecBadHdr : GzipCodec :=
  ⟨fun s => if s = "bad" then some "gzip: invalid header" else none,
    fun _ => ("ok\n", none)⟩

/-- A codec whose header check passes but whose body read stops early
with an error after decoding `par`. -/
def codecPartial : GzipCodec :=
  ⟨fun _ => none, fun _ => ("par", some "unexpected EOF")⟩

/-- The worker records an error for its host exactly when dial failed,
session-open failed, or (Capture mode only) the run returned an error. -/
def errRecorded (pipeMode : Bool) (env : HostEnv) : Prop :=
  env.dialErr ≠ none ∨ env.sessErr ≠ none ∨
    (pipeMode = false ∧ env.outErr ≠ none)

/-- Replace the transport-level outcomes (dial, session-open) of an
environment, keeping the later per-step outcomes unchanged. -/
def setConn (env : HostEnv) (d s : Option String) : HostEnv :=
  ⟨d, s, env.out, env.outErr, env.stdoutPipeErr, env.stderrPipeErr,
    env.startErr, env.waitErr⟩

theorem mem_keysOf_upsert (m : List (String × String)) (k h v : String) :
    k ∈ keysOf (upsert m h v) ↔ k = h ∨ k ∈ keysOf m := by
  induction m with
  | nil => simp [upsert, keysOf]
  | cons p t ih =>
      obtain ⟨k', v'⟩ := p
      by_cases hk : k' = h
      · subst hk
        simp [upsert, keysOf]
      · simp [upsert, hk, keysOf, ih]
        tauto

theorem execute_Output_mem (pm : Bool) (port : Nat) (st : RCState)
    (host : String) (env : HostEnv) (k : String) :
    k ∈ keysOf (execute pm port st host env).1.Output ↔
      k ∈ keysOf st.Output ∨
        (pm = false ∧ k = host ∧ env.dialErr = none ∧ env.sessErr = none) := by
  obtain ⟨d, s, o, oe, a1, a2, a3, a4⟩ := env
  cases d <;> cases s <;> cases pm <;> cases oe <;>
    simp [execute, mem_keysOf_upsert] <;> tauto

theorem execute_Error_mem (pm : Bool) (port : Nat) (st : RCState)
    (host : String) (env : HostEnv) (k : String) :
    k ∈ keysOf (execute pm port st host env).1.Error ↔
      k ∈ keysOf st.Error ∨ (k = host ∧ errRecorded pm env) := by
  obtain ⟨d, s, o, oe, a1, a2, a3, a4⟩ := env
  cases d <;> cases s <;> cases pm <;> cases oe <;>
    simp [execute, mem_keysOf_upsert, errRecorded] <;> tauto

theorem runHosts_Output_mem (pm : Bool) (port : Nat) (hosts : List String)
    (envs : String → HostEnv) (st : RCState) (k : String) :
    k ∈ keysOf (runHosts pm port hosts envs st).1.Output ↔
      k ∈ keysOf st.Output ∨
        (k ∈ hosts ∧ pm = false ∧ (envs k).dialErr = none ∧
          (envs k).sessErr = none) := by
  induction hosts generalizing st with
  | nil => simp [runHosts]
  | cons h t ih =>
      simp only [runHosts]
      rw [ih, execute_Output_mem]
      constructor
      · rintro ((hm | ⟨hpm, hk, hd, hs⟩) | ⟨hkt, hpm, hd, hs⟩)
        · exact Or.inl hm
        · subst hk
          exact Or.inr ⟨List.mem_cons_self _ _, hpm, hd, hs⟩
        · exact Or.inr ⟨List.mem_cons_of_mem _ hkt, hpm, hd, hs⟩
      · rintro (hm | ⟨hkht, hpm, hd, hs⟩)
        · exact Or.inl (Or.inl hm)
        · rcases List.mem_cons.mp hkht with hk | hkt
          · subst hk
            exact Or.inl (Or.inr ⟨hpm, rfl, hd, hs⟩)
          · exact Or.inr ⟨hkt, hpm, hd, hs⟩

theorem runHosts_Error_mem (pm : Bool) (port : Nat) (hosts : List String)
    (envs : String → HostEnv) (st : RCState) (k : String) :
    k ∈ keysOf (runHosts pm port hosts envs st).1.Error ↔
      k ∈ keysOf st.Error ∨ (k ∈ hosts ∧ errRecorded pm (envs k)) := by
  induction hosts generalizing st with
  | nil => simp [runHosts]
  | cons h t ih =>
      simp only [runHosts]
      rw [ih, execute_Error_mem]
      constructor
      · rintro ((hm | ⟨hk, hr⟩) | ⟨hkt, hr⟩)
        · exact Or.inl hm
        · subst hk
          exact Or.inr ⟨List.mem_cons_self _ _, hr⟩
        · exact Or.inr ⟨List.mem_cons_of_mem _ hkt, hr⟩
      · rintro (hm | ⟨hkht, hr⟩)
        · exact Or.inl (Or.inl hm)
        · rcases List.mem_cons.mp hkht with hk | hkt
          · subst hk
            exact Or.inl (Or.inr ⟨rfl, hr⟩)
          · exact Or.inr ⟨hkt, hr⟩

theorem renderOutEntries_append (gz : Bool) (codec : GzipCodec) (noHost : Bool)
    (l1 l2 : List (String × String)) :
    renderOutEntries gz codec noHost (l1 ++ l2) =
      ((renderOutEntries gz codec noHost l1).1 ++
          (renderOutEntries gz codec noHost l2).1,
        (renderOutEntries gz codec noHost l1).2 ++
          (renderOutEntries gz codec noHost l2).2) := by
  induction l1 with
  | nil => simp [renderOutEntries]
  | cons p t ih =>
      obtain ⟨h, o⟩ := p
      simp [renderOutEntries, ih, String.append_assoc]

theorem isEmpty_append_cons (a b : List (String × String)) (x : String × String) :
    (a ++ x :: b).isEmpty = false := by
  cases a <;> rfl

theorem PrettyPrint_wo_noHeader (gz : Bool) (codec : GzipCodec) (st : RCState)
    (noHost : Bool) :
    (PrettyPrint gz codec st true noHost).wo =
      (renderOutEntries gz codec noHost st.Output).1 := by
  cases hO : st.Output with
  | nil => simp [PrettyPrint, hO, renderOutEntries]
  | cons p t => simp [PrettyPrint, hO]

theorem PrettyPrint_logs (gz : Bool) (codec : GzipCodec) (st : RCState)
    (noHeader noHost : Bool) :
    (PrettyPrint gz codec st noHeader noHost).logs =
      (renderOutEntries gz codec noHost st.Output).2 := by
  cases hO : st.Output with
  | nil => simp [PrettyPrint, hO, renderOutEntries]
  | cons p t => simp [PrettyPrint, hO]

/-- Claim C2 (code bug): when dial succeeds but session-open fails, the
worker records the error under the host key and the deferred connection
close runs, but the worker never calls `wg.Done` (the session-failure
branch returns without it), so with a single such host `Start` never
returns from `wg.Wait`. -/
theorem sessionFailure_blocks_Start :
    (execute false 22 emptyState "h1" envSessFail).2.2 = false ∧
    (execute false 22 emptyState "h1" envSessFail).1.Error =
      [("h1", "ssh: session open failed")] ∧
    Ev.clientClose ∈ (execute false 22 emptyState "h1" envSessFail).2.1 ∧
    Ev.wgDone ∉ (execute false 22 emptyState "h1" envSessFail).2.1 ∧
    (Start false 22 ["h1"] (fun _ => envSessFail) true).returns = false := by
  decide

/-- Claim C3 counterexample: in Stream mode with no receiver on the
unbuffered `PipeChan`, every worker finishes (`dones = [true]`) yet
`Start` never returns — it is blocked forever on the channel send,
contradicting the claim that the signal cannot block `Start`. -/
theorem streamNoReceiver_blocks :
    (Start true 22 ["h1"] (fun _ => envOK) false).returns = false ∧
    (Start true 22 ["h1"] (fun _ => envOK) false).blockedOnPipeChan = true ∧
    (Start true 22 ["h1"] (fun _ => envOK) false).dones = [true] := by
  decide

/-- Claim C3 (amended): the workers are launched before the readiness
signal is emitted, so worker progress and the final shared state are
independent of whether anyone receives the signal; but the send on the
unbuffered `PipeChan` blocks `Start` forever when no caller receives it,
and with a receiver `Start` returns exactly when every worker signalled
completion. -/
theorem stream_signal_advisory_amended (port : Nat) (hosts : List String)
    (envs : String → HostEnv) :
    (Start true port hosts envs false).st = (Start true port hosts envs true).st ∧
    (Start true port hosts envs false).dones =
      (Start true port hosts envs true).dones ∧
    (Start true port hosts envs false).returns = false ∧
    (Start true port hosts envs false).blockedOnPipeChan = true ∧
    (Start true port hosts envs true).returns =
      (Start true port hosts envs true).dones.all (fun b => b) := by
  simp [Start]

/-- Claim C4 counterexample: a Stream-mode worker that reaches the
session writes the `Running`, `PipeOut` and `PipeError` maps without
holding the mutex, so its trace violates the locking discipline. -/
theorem streamWrites_outside_lock :
    writesLocked (execute true 22 emptyState "h1" envOK).2.1 = false := by
  decide

/-- Claim C4 (amended): writes to `Output` and `Error` are always
performed under the lock in both modes, and in Capture mode every shared
map write is under the lock; but a Stream-mode worker that reaches the
session writes `Running`/`PipeOut`/`PipeError` outside the lock. -/
theorem lock_discipline_amended (port : Nat) (st : RCState) (host : String)
    (env : HostEnv) :
    writesLockedFrom aggMap (execute false port st host env).2.1 false = true ∧
    writesLockedFrom aggMap (execute true port st host env).2.1 false = true ∧
    writesLocked (execute false port st host env).2.1 = true ∧
    writesLocked (execute true port st host (setConn env none none)).2.1 =
      false := by
  obtain ⟨d, s, o, oe, a1, a2, a3, a4⟩ := env
  cases d <;> cases s <;> cases oe <;>
    simp [execute, setConn, writesLocked, writesLockedFrom, aggMap]

/-- Claim C5 counterexample: a Stream-mode worker whose pipes, start and
wait all fail records nothing in the `Error` map (the branch assigns the
errors to a local variable and never checks it), contradicting the claim
that such failures land in `Error`. -/
theorem streamSetupErrors_not_recorded :
    (execute true 22 emptyState "h1" envStreamSetupFail).1.Error = [] ∧
    (execute true 22 emptyState "h1" envStreamSetupFail).2.2 = true := by
  decide

/-- Claim C5 (amended): in Stream mode, dial failures and session-open
failures are recorded in `Error` exactly as in Capture mode, but once
the session is open the `Error` map is left untouched no matter how the
pipe acquisitions, the command start or the wait turn out. -/
theorem stream_error_recording_amended (port : Nat) (st : RCState)
    (host : String) (env : HostEnv) (m : String) :
    (execute true port st host (setConn env none none)).1.Error = st.Error ∧
    (execute true port st host (setConn env (some m) env.sessErr)).1.Error =
      upsert st.Error host m ∧
    (execute true port st host (setConn env none (some m))).1.Error =
      upsert st.Error host m := by
  simp [execute, setConn]

/-- Claim C6 counterexample: with an empty host sequence in Stream mode
and no receiver on the unbuffered `PipeChan`, `Start` never returns (it
blocks on the channel send), although both maps are empty. -/
theorem emptyHosts_stream_noReceiver_blocks :
    (Start true 22 [] (fun _ => envOK) false).returns = false ∧
    (Start true 22 [] (fun _ => envOK) false).st = emptyState := by
  decide

/-- Claim C6 (amended): an empty host sequence makes `Start` perform no
per-host work and leave every map empty; it returns immediately in
Capture mode, and in Stream mode it returns once the readiness signal on
the unbuffered `PipeChan` is received. -/
theorem emptyHosts_noop (port : Nat) (envs : String → HostEnv) (recv : Bool) :
    (Start false port [] envs recv).returns = true ∧
    (Start false port [] envs recv).st = emptyState ∧
    (Start false port [] envs recv).dones = [] ∧
    (Start true port [] envs true).returns = true ∧
    (Start true port [] envs true).st = emptyState ∧
    (Start true port [] envs true).dones = [] := by
  simp [Start, runHosts]

/-- Claim C7: a host identifier without an explicit port is dialed with
the configured default port appended; on dial failure the error is
recorded under the original, non-augmented host key, `Output` is left
untouched, and the worker still signals completion, so other hosts are
unaffected. -/
theorem dial_port_and_keying (pm : Bool) (port : Nat) (st : RCState)
    (host : String) (env : HostEnv) (m : String)
    (hcolon : containsChar host ':' = false) :
    Ev.dial (host ++ ":" ++ toString port) ∈
      (execute pm port st host (setConn env (some m) env.sessErr)).2.1 ∧
    (execute pm port st host (setConn env (some m) env.sessErr)).1.Error =
      upsert st.Error host m ∧
    (execute pm port st host (setConn env (some m) env.sessErr)).1.Output =
      st.Output ∧
    (execute pm port st host (setConn env (some m) env.sessErr)).2.2 = true := by
  simp [execute, setConn, hcolon]

/-- Claim C7 witness: the theorem applied to host `h1` (no explicit
port), default port 22, and a failing dial. -/
theorem dial_port_and_keying_w :
    Ev.dial ("h1" ++ ":" ++ toString 22) ∈
      (execute false 22 emptyState "h1"
        (setConn envOK (some "dial tcp: connection refused") envOK.sessErr)).2.1 ∧
    (execute false 22 emptyState "h1"
        (setConn envOK (some "dial tcp: connection refused") envOK.sessErr)).1.Error =
      upsert emptyState.Error "h1" "dial tcp: connection refused" ∧
    (execute false 22 emptyState "h1"
        (setConn envOK (some "dial tcp: connection refused") envOK.sessErr)).1.Output =
      emptyState.Output ∧
    (execute false 22 emptyState "h1"
        (setConn envOK (some "dial tcp: connection refused") envOK.sessErr)).2.2 =
      true :=
  dial_port_and_keying false 22 emptyState "h1" envOK
    "dial tcp: connection refused" (by decide)

/-- Claim C1 counterexample: in Capture mode, a host whose command runs
but exits with an error gets its key recorded in BOTH `Output` (the
captured bytes are always stored) and `Error`, even though `Start`
returns normally — so the host does not appear in exactly one map. -/
theorem captureExecFail_in_both_maps :
    "h1" ∈ keysOf (Start false 22 ["h1"] (fun _ => envExecFail) true).st.Output ∧
    "h1" ∈ keysOf (Start false 22 ["h1"] (fun _ => envExecFail) true).st.Error ∧
    (Start false 22 ["h1"] (fun _ => envExecFail) true).returns = true := by
  decide

/-- Claim C1 (amended): in Capture mode, after `Start` returns every
host of the sequence appears in at least one of `Output`/`Error`, and it
appears in both exactly when dial and session-open succeeded but the
remote execution itself returned an error (in which case the captured
output is stored alongside the error); otherwise it appears in exactly
one. -/
theorem capture_host_classification (port : Nat) (hosts : List String)
    (envs : String → HostEnv) (recv : Bool) (h : String) (hmem : h ∈ hosts) :
    (h ∈ keysOf (Start false port hosts envs recv).st.Output ∨
      h ∈ keysOf (Start false port hosts envs recv).st.Error) ∧
    ((h ∈ keysOf (Start false port hosts envs recv).st.Output ∧
        h ∈ keysOf (Start false port hosts envs recv).st.Error) ↔
      ((envs h).dialErr = none ∧ (envs h).sessErr = none ∧
        (envs h).outErr ≠ none)) := by
  have hst : (Start false port hosts envs recv).st =
      (runHosts false port hosts envs emptyState).1 := by
    simp [Start]
  rw [hst]
  simp only [runHosts_Output_mem, runHosts_Error_mem, errRecorded, emptyState,
    keysOf, List.not_mem_nil, false_or, hmem, true_and, eq_self_iff_true]
  by_cases hd : (envs h).dialErr = none <;>
    by_cases hs : (envs h).sessErr = none <;>
    by_cases ho : (envs h).outErr = none <;>
    simp [hd, hs, ho]

/-- Claim C1 witness: the amended theorem applied to a one-host sequence
whose command exits non-zero: the host lands in both maps. -/
theorem capture_host_classification_w :
    ("h1" ∈ keysOf (Start false 22 ["h1"] (fun _ => envExecFail) true).st.Output ∨
      "h1" ∈ keysOf (Start false 22 ["h1"] (fun _ => envExecFail) true).st.Error) ∧
    (("h1" ∈ keysOf (Start false 22 ["h1"] (fun _ => envExecFail) true).st.Output ∧
        "h1" ∈ keysOf (Start false 22 ["h1"] (fun _ => envExecFail) true).st.Error) ↔
      (envExecFail.dialErr = none ∧ envExecFail.sessErr = none ∧
        envExecFail.outErr ≠ none)) :=
  capture_host_classification 22 ["h1"] (fun _ => envExecFail) true "h1"
    (by decide)

/-- Claim C8: with compression disabled and host labels enabled,
rendering a host's output writes the host label right-aligned to width
15, a colon and a space, a line break first when the trimmed body
contains an embedded newline, then the body with trailing newlines
trimmed and exactly one final newline; in particular output `hello\n`
from host `h1` renders as the padded label, colon-space, `hello`,
newline. -/
theorem plain_label_shape :
    (∀ (codec : GzipCodec) (h o : String),
      (PrettyPrint false codec ⟨[(h, o)], [], [], [], []⟩ true false).wo =
        padLeft15 h ++ ": " ++ (if containsNl (trimNl o) then "\n" else "") ++
          trimNl o ++ "\n") ∧
    (PrettyPrint false codecOK ⟨[("h1", "hello\n")], [], [], [], []⟩
        true false).wo = "             h1: hello\n" := by
  constructor
  · intro codec h o
    rw [PrettyPrint_wo_noHeader]
    simp [renderOutEntries, renderOutEntry, String.append_assoc]
  · decide

/-- Claim C9: with compression enabled, a host whose stored payload
fails the gzip header check is skipped — the rendered output is exactly
the rendering of the other hosts — and the failure message is logged. -/
theorem gzip_header_failure_skips (codec : GzipCodec)
    (l1 l2 E : List (String × String)) (R1 R2 R3 : List String)
    (h o m : String) (noHost : Bool) (hhdr : codec.header o = some m) :
    (PrettyPrint true codec ⟨l1 ++ (h, o) :: l2, E, R1, R2, R3⟩ true noHost).wo =
      (PrettyPrint true codec ⟨l1 ++ l2, E, R1, R2, R3⟩ true noHost).wo ∧
    m ∈ (PrettyPrint true codec ⟨l1 ++ (h, o) :: l2, E, R1, R2, R3⟩
          true noHost).logs := by
  constructor
  · rw [PrettyPrint_wo_noHeader, PrettyPrint_wo_noHeader]
    show (renderOutEntries true codec noHost (l1 ++ (h, o) :: l2)).1 =
      (renderOutEntries true codec noHost (l1 ++ l2)).1
    rw [show l1 ++ (h, o) :: l2 = l1 ++ ([(h, o)] ++ l2) from rfl]
    rw [renderOutEntries_append, renderOutEntries_append,
      renderOutEntries_append]
    simp [renderOutEntries, renderOutEntry, hhdr]
  · rw [PrettyPrint_logs]
    show m ∈ (renderOutEntries true codec noHost (l1 ++ (h, o) :: l2)).2
    rw [show l1 ++ (h, o) :: l2 = l1 ++ ([(h, o)] ++ l2) from rfl]
    rw [renderOutEntries_append]
    simp [renderOutEntries_append, renderOutEntries, renderOutEntry, hhdr]

/-- Claim C9 witness: a three-host output map where the middle payload
fails the header check renders exactly like the two-host map without it,
and the header error is logged. -/
theorem gzip_header_failure_skips_w :
    (PrettyPrint true codecBadHdr
        ⟨[("a", "pa"), ("h1", "bad"), ("b", "pb")], [], [], [], []⟩
        true false).wo =
      (PrettyPrint true codecBadHdr ⟨[("a", "pa"), ("b", "pb")], [], [], [], []⟩
        true false).wo ∧
    "gzip: invalid header" ∈
      (PrettyPrint true codecBadHdr
        ⟨[("a", "pa"), ("h1", "bad"), ("b", "pb")], [], [], [], []⟩
        true false).logs :=
  gzip_header_failure_skips codecBadHdr [("a", "pa")] [("b", "pb")] [] [] [] []
    "h1" "bad" "gzip: invalid header" false (by decide)

/-- Claim C10: with compression enabled, a payload that passes the gzip
header check but whose body read fails midway is NOT skipped: the error
is logged and the host's line is still rendered from the bytes that were
decoded, with label and trailing newline as usual. -/
theorem gzip_body_failure_renders_partial (codec : GzipCodec)
    (E : List (String × String)) (R1 R2 R3 : List String) (h o d m : String)
    (hhdr : codec.header o = none) (hbody : codec.body o = (d, some m)) :
    (PrettyPrint true codec ⟨[(h, o)], E, R1, R2, R3⟩ true false).wo =
      padLeft15 h ++ ": " ++ (if containsNl (trimNl d) then "\n" else "") ++
        trimNl d ++ "\n" ∧
    (PrettyPrint true codec ⟨[(h, o)], E, R1, R2, R3⟩ true false).logs =
      [m] := by
  constructor
  · rw [PrettyPrint_wo_noHeader]
    simp [renderOutEntries, renderOutEntry, hhdr, hbody, String.append_assoc]
  · rw [PrettyPrint_logs]
    simp [renderOutEntries, renderOutEntry, hhdr, hbody]

/-- Claim C10 witness: a codec whose body read stops early after
decoding `par` still yields a rendered line for the host, plus the
logged error. -/
theorem gzip_body_failure_renders_partial_w :
    (PrettyPrint true codecPartial ⟨[("h1", "payload")], [], [], [], []⟩
        true false).wo =
      padLeft15 "h1" ++ ": " ++
        (if containsNl (trimNl "par") then "\n" else "") ++ trimNl "par" ++
        "\n" ∧
    (PrettyPrint true codecPartial ⟨[("h1", "payload")], [], [], [], []⟩
        true false).logs = ["unexpected EOF"] :=
  gzip_body_failure_renders_partial codecPartial [] [] [] [] "h1" "payload"
    "par" "unexpected EOF" rfl rfl

end OptoolSpec
